import Mathlib

/-
Verification of the TF encoder variants of rllib/core/models/tf/encoder.py:
the CNN, MLP and recurrent (LSTM) encoders and the actor-critic composite,
against the contract layer described in the repository specification.

The tensor payloads of the external numeric library are modelled exactly
(integer element values); layer objects (LSTM cells, dense layers, the CNN
stack) are external collaborators and enter as function parameters, with
their shape behaviour stated as explicit contracts taken from the spec's
section on external interfaces.

Nested tensor dicts are modelled in flattened form (an association list
from key paths to leaves), matching the flattened-key access of the
NestedDict data model described in the spec.
-/

set_option autoImplicit false

namespace RayEnc

/-- A tensor: a shape together with exact element values indexed by a
multi-index. Values are exact integers, so the float32 payload of the
original program is modelled exactly and numeric rounding is out of
scope. -/
structure Tensor where
  shape : List Nat
  data : List Nat → Int

def defaultTensor : Tensor := ⟨[], fun _ => 0⟩

instance : Inhabited Tensor := ⟨defaultTensor⟩

/-- tf.zeros for a given shape. -/
def Tensor.zeros (s : List Nat) : Tensor := ⟨s, fun _ => 0⟩

/-- tf.cast(x, tf.float32): the identity on the exact-value model. -/
def cast32 (t : Tensor) : Tensor := t

/-- tf.transpose(s, perm=[1, 0, 2]) on a rank-3 tensor: swaps the first
two axes. -/
def transpose102 (t : Tensor) : Tensor :=
  ⟨match t.shape with
    | a :: b :: rest => b :: a :: rest
    | s => s,
   fun idx =>
    match idx with
    | i :: j :: rest => t.data (j :: i :: rest)
    | l => t.data l⟩

/-- Indexing a tensor on its leading axis, as in states_in["h"][i]. -/
def slice0 (t : Tensor) (i : Nat) : Tensor :=
  ⟨t.shape.tail, fun idx => t.data (i :: idx)⟩

/-- tf.stack(ts, axis=1): stacks a list of tensors along a new second
axis. -/
def stack1 (ts : List Tensor) : Tensor :=
  ⟨match ts with
    | [] => [0]
    | t :: _ => t.shape.take 1 ++ ts.length :: t.shape.drop 1,
   fun idx =>
    match idx with
    | i :: l :: rest => (ts.getD l defaultTensor).data (i :: rest)
    | l => (ts.getD 0 defaultTensor).data l⟩

/-- A leaf value of a nested tensor dict: a tensor, or the Python None
(as in the MLP encoder's fixed state output). -/
inductive TLeaf where
  | tensor (t : Tensor)
  | noneV

instance : Inhabited TLeaf := ⟨.noneV⟩

/-- A nested tensor dict in flattened form: an association list from key
paths to leaves, matching the flattened-key access of NestedDict. -/
abbrev TDataF := List (List String × TLeaf)

/-- Exact lookup of a key path, first match wins. -/
def lookupP : TDataF → List String → Option TLeaf
  | [], _ => none
  | (p, v) :: rest, q => if p = q then some v else lookupP rest q

/-- Is p an initial segment of q. -/
def seg : List String → List String → Bool
  | [], _ => true
  | _ :: _, [] => false
  | a :: p, b :: q => a == b && seg p q

/-- Does the path q name an existing key or sub-dict: some stored path
starts with q. -/
def hasKeyUnder (d : TDataF) (q : List String) : Bool :=
  d.any fun e => seg q e.1

/-- The tensor stored at a path; total with a default, used only where
presence has been established (a missing key raises in the source). -/
def tensorAt (d : TDataF) (q : List String) : Tensor :=
  match lookupP d q with
  | some (.tensor t) => t
  | _ => defaultTensor

/-- The sub-dict stored under a top-level key k, with k removed from the
paths. -/
def subDict : TDataF → String → TDataF
  | [], _ => []
  | (q, v) :: rest, k =>
    match q with
    | a :: p => if a = k then (p, v) :: subDict rest k else subDict rest k
    | [] => subDict rest k

/-- Re-roots a whole dict under a top-level key k. -/
def underKey (k : String) (d : TDataF) : TDataF :=
  d.map fun e => (k :: e.1, e.2)

/-- Modelled from the spec: a tensor spec is an ordered list of named
dimensions, each optionally bound to a concrete size; a spec-dict entry is
either such a tensor spec or None, meaning the key must be present but is
unconstrained (specs_base/specs_tf are outside the provided sources). -/
inductive SLeaf where
  | anyV
  | tensor (dims : List (String × Option Nat))

instance : Inhabited SLeaf := ⟨.anyV⟩

/-- Modelled from the spec: a spec dictionary in the same flattened form
as the data dicts. -/
abbrev SpecF := List (List String × SLeaf)

/-- Assoc lookup in a spec dictionary. -/
def lookupSpec : SpecF → List String → Option SLeaf
  | [], _ => none
  | (p, v) :: rest, q => if p = q then some v else lookupSpec rest q

/-- Modelled from the spec: bound dimensions must match exactly,
unconstrained ones only occupy a rank position. Returns the name of the
first offending dimension. -/
def vDims : List (String × Option Nat) → List Nat → Option String
  | [], _ => none
  | (nm, some n) :: dims, s :: ss => if s = n then vDims dims ss else some nm
  | (_, none) :: dims, _ :: ss => vDims dims ss
  | _ :: _, [] => none

/-- Modelled from the spec: the rank of the actual tensor must equal the
number of named dimensions; then every bound dimension must match. -/
def vTensor (dims : List (String × Option Nat)) (shape : List Nat) : Option String :=
  if shape.length = dims.length then vDims dims shape else some "rank"

/-- Modelled from the spec: one spec entry checked against the data: a
None spec only requires the key to be present, a tensor spec requires a
tensor of matching rank and bound sizes. -/
def checkEntry (d : TDataF) (p : List String) (sl : SLeaf) : Option (List String × String) :=
  match sl with
  | .anyV => if hasKeyUnder d p then none else some (p, "missing")
  | .tensor dims =>
    match lookupP d p with
    | some (.tensor t) => (vTensor dims t.shape).map fun nm => (p, nm)
    | some .noneV => some (p, "not a tensor")
    | none => some (p, "missing")

/-- Modelled from the spec: validation succeeds iff every key required by
the spec is present with a matching tensor; extra keys in the data are
ignored. Reports the first offending key path and detail. -/
def validateF : SpecF → TDataF → Option (List String × String)
  | [], _ => none
  | (p, sl) :: spec, d =>
    match checkEntry d p sl with
    | some e => some e
    | none => validateF spec d

/-- Modelled from the spec: the two error kinds, carrying the violating
key path and a detail naming the offending dimension or condition. -/
inductive Violation where
  | inputV (path : List String) (detail : String)
  | outputV (path : List String) (detail : String)
deriving DecidableEq

/-- Modelled from the spec: Encoder.forward validates the input against
get_input_specs, delegates to the variant body, and validates the result
against get_output_specs (the Encoder base class is outside the provided
sources). -/
def genericForward (inSpec outSpec : SpecF) (body : TDataF → TDataF)
    (inputs : TDataF) : Except Violation TDataF :=
  match validateF inSpec inputs with
  | some e => .error (.inputV e.1 e.2)
  | none =>
    let out := body inputs
    match validateF outSpec out with
    | some e => .error (.outputV e.1 e.2)
    | none => .ok out

/-- Modelled from the spec: the CNNEncoderConfig fields the encoder
reads (the config classes are outside the provided sources). -/
structure CNNEncoderConfig where
  inputDims : Nat × Nat × Nat
  outputDims0 : Nat

/-- Modelled from the spec: the MLPEncoderConfig fields the encoder
reads. -/
structure MLPEncoderConfig where
  inputDims0 : Nat
  outputDims0 : Nat

/-- Modelled from the spec: the LSTMEncoderConfig fields the encoder
reads; the spec's list of configuration fields has num_lstm_layers and
hidden_dim and no num_layers field. -/
structure LSTMEncoderConfig where
  inputDims0 : Nat
  outputDims0 : Nat
  hiddenDim : Nat
  numLstmLayers : Nat

/-- Modelled from the spec: the configuration field names supplied to the
recurrent encoder by its configuration object. -/
def lstmConfigFields : List String :=
  ["input_dims", "output_dims", "hidden_dim", "num_lstm_layers",
   "batch_major", "use_bias"]

/-- A shape contract for the external CNN and MLP pipelines: batch in,
the configured number of output features out. -/
def NetShapeOK (outDim : Nat) (net : Tensor → Tensor) : Prop :=
  ∀ x, (net x).shape = x.shape.take 1 ++ [outDim]

/-- Modelled from the spec: a dense layer maps the last feature axis to
its configured number of units and keeps the leading axes. -/
def DenseShapeOK (units : Nat) (f : Tensor → Tensor) : Prop :=
  ∀ x, (f x).shape = x.shape.dropLast ++ [units]

/-- The call contract of one tf.keras LSTM layer built with
return_sequences and return_state: sequence input and an (h, c) state
pair in; full sequence output and the new h and c out. -/
abbrev LSTMLayer := Tensor → Tensor → Tensor → Tensor × Tensor × Tensor

def defaultLayer : LSTMLayer := fun x h c => (x, h, c)

/-- Modelled from the spec: the external LSTM layer's shape contract: on
a (batch, time, features) input the layer returns a full sequence output
(batch, time, units) and h and c states of shape (batch, units). -/
def LSTMLayerShapeOK (units : Nat) (layer : LSTMLayer) : Prop :=
  ∀ x h c, ((layer x h c).1).shape = x.shape.take 2 ++ [units]
    ∧ ((layer x h c).2.1).shape = x.shape.take 1 ++ [units]
    ∧ ((layer x h c).2.2).shape = x.shape.take 1 ++ [units]

namespace TfCNNEncoder

/-- TfCNNEncoder.get_input_specs: a rank-4 observation with bound width,
height and channel, plus unconstrained state_in and seq_lens keys. -/
def getInputSpecs (cfg : CNNEncoderConfig) : SpecF :=
  [(["obs"], .tensor [("b", none), ("w", some cfg.inputDims.1),
      ("h", some cfg.inputDims.2.1), ("c", some cfg.inputDims.2.2)]),
   (["state_in"], .anyV),
   (["seq_lens"], .anyV)]

/-- TfCNNEncoder.get_output_specs. -/
def getOutputSpecs (cfg : CNNEncoderConfig) : SpecF :=
  [(["encoder_out"], .tensor [("b", none), ("d", some cfg.outputDims0)]),
   (["state_out"], .anyV)]

/-- TfCNNEncoder._forward: encoder output is self.net applied to the
observation; the state is passed through from state_in to state_out. -/
def forwardBody (net : Tensor → Tensor) (inputs : TDataF) : TDataF :=
  (["encoder_out"], .tensor (net (tensorAt inputs ["obs"]))) ::
    underKey "state_out" (subDict inputs "state_in")

/-- TfCNNEncoder.forward: the contract wrapper around _forward. -/
def forward (cfg : CNNEncoderConfig) (net : Tensor → Tensor) :
    TDataF → Except Violation TDataF :=
  genericForward (getInputSpecs cfg) (getOutputSpecs cfg) (forwardBody net)

end TfCNNEncoder

namespace TfMLPEncoder

/-- TfMLPEncoder.get_input_specs: only the observation is required; the
state and sequence-length entries are commented out in the source. -/
def getInputSpecs (cfg : MLPEncoderConfig) : SpecF :=
  [(["obs"], .tensor [("b", none), ("d", some cfg.inputDims0)])]

/-- TfMLPEncoder.get_output_specs. -/
def getOutputSpecs (cfg : MLPEncoderConfig) : SpecF :=
  [(["encoder_out"], .tensor [("b", none), ("d", some cfg.outputDims0)]),
   (["state_out"], .anyV)]

/-- TfMLPEncoder._forward: state_out is fixed to None. -/
def forwardBody (net : Tensor → Tensor) (inputs : TDataF) : TDataF :=
  [(["encoder_out"], .tensor (net (tensorAt inputs ["obs"]))),
   (["state_out"], .noneV)]

/-- TfMLPEncoder.forward: the contract wrapper around _forward. -/
def forward (cfg : MLPEncoderConfig) (net : Tensor → Tensor) :
    TDataF → Except Violation TDataF :=
  genericForward (getInputSpecs cfg) (getOutputSpecs cfg) (forwardBody net)

end TfMLPEncoder

namespace TfLSTMEncoder

/-- TfLSTMEncoder.get_input_specs: a rank-3 observation and a nested
state_in entry with h and c tensors of shape (b, num_lstm_layers,
hidden_dim). -/
def getInputSpecs (cfg : LSTMEncoderConfig) : SpecF :=
  [(["obs"], .tensor [("b", none), ("t", none), ("d", some cfg.inputDims0)]),
   (["state_in", "h"], .tensor [("b", none), ("l", some cfg.numLstmLayers),
      ("h", some cfg.hiddenDim)]),
   (["state_in", "c"], .tensor [("b", none), ("l", some cfg.numLstmLayers),
      ("h", some cfg.hiddenDim)])]

/-- TfLSTMEncoder.get_output_specs. -/
def getOutputSpecs (cfg : LSTMEncoderConfig) : SpecF :=
  [(["encoder_out"], .tensor [("b", none), ("t", none), ("d", some cfg.outputDims0)]),
   (["state_out", "h"], .tensor [("b", none), ("l", some cfg.numLstmLayers),
      ("h", some cfg.hiddenDim)]),
   (["state_out", "c"], .tensor [("b", none), ("l", some cfg.numLstmLayers),
      ("h", some cfg.hiddenDim)])]

/-- TfLSTMEncoder.get_initial_state: zeros of shape (num_layers,
hidden_dim) for h and c. The source reads config.num_layers, a field the
configuration does not define (every other use in the file is
num_lstm_layers); the charitable reading num_lstm_layers is used for the
shape here. -/
def getInitialState (cfg : LSTMEncoderConfig) : TDataF :=
  [(["h"], .tensor (Tensor.zeros [cfg.numLstmLayers, cfg.hiddenDim])),
   (["c"], .tensor (Tensor.zeros [cfg.numLstmLayers, cfg.hiddenDim]))]

/-- The for-loop of TfLSTMEncoder._forward: iterates the LSTM layers with
the running index i, feeding layer i the layers-first slices of h and c
at index i and the previous sequence output, collecting the per-layer h
and c outputs in order. -/
def lstmLoop : List LSTMLayer → Nat → Tensor → Tensor → Tensor →
    Tensor × List Tensor × List Tensor
  | [], _, out, _, _ => (out, [], [])
  | layer :: rest, i, out, hT, cT =>
    let r := layer out (slice0 hT i) (slice0 cT i)
    let rr := lstmLoop rest (i + 1) r.1 hT cT
    (rr.1, r.2.1 :: rr.2.1, r.2.2 :: rr.2.2)

/-- TfLSTMEncoder._forward on the extracted tensors: cast the
observation, transpose the incoming states to layers-first, run the layer
loop from index 0, apply the final linear layer to the last sequence
output, and stack the collected per-layer states along axis 1, i.e. back
to batch-first. Returns (encoder out, state out h, state out c). -/
def core (layers : List LSTMLayer) (linear : Tensor → Tensor)
    (obs hIn cIn : Tensor) : Tensor × Tensor × Tensor :=
  let out := cast32 obs
  let hT := transpose102 hIn
  let cT := transpose102 cIn
  let r := lstmLoop layers 0 out hT cT
  (linear r.1, stack1 r.2.1, stack1 r.2.2)

/-- TfLSTMEncoder._forward as a dict transformer. -/
def forwardBody (layers : List LSTMLayer) (linear : Tensor → Tensor)
    (inputs : TDataF) : TDataF :=
  let r := core layers linear (tensorAt inputs ["obs"])
      (tensorAt inputs ["state_in", "h"]) (tensorAt inputs ["state_in", "c"])
  [(["encoder_out"], .tensor r.1),
   (["state_out", "h"], .tensor r.2.1),
   (["state_out", "c"], .tensor r.2.2)]

/-- TfLSTMEncoder.forward: the contract wrapper around _forward. -/
def forward (cfg : LSTMEncoderConfig) (layers : List LSTMLayer)
    (linear : Tensor → Tensor) : TDataF → Except Violation TDataF :=
  genericForward (getInputSpecs cfg) (getOutputSpecs cfg) (forwardBody layers linear)

end TfLSTMEncoder

/-- The per-layer computation of the recurrent pipeline, characterised
directly by recursion on the layer index: layer l consumes the sequence
output of layer l-1 (the cast observation for l = 0) together with the
l-th layers-first slices of the incoming state, and produces its sequence
output and its h and c state outputs. -/
def layerStep (layers : List LSTMLayer) (hT cT x0 : Tensor) :
    Nat → Tensor × Tensor × Tensor
  | 0 => (layers.getD 0 defaultLayer) x0 (slice0 hT 0) (slice0 cT 0)
  | l + 1 => (layers.getD (l + 1) defaultLayer)
      (layerStep layers hT cT x0 l).1 (slice0 hT (l + 1)) (slice0 cT (l + 1))

/-- The sequence input consumed by layer l: the cast observation for
l = 0, the previous layer's sequence output otherwise. -/
def xAt (layers : List LSTMLayer) (hT cT x0 : Tensor) : Nat → Tensor
  | 0 => x0
  | l + 1 => (layerStep layers hT cT x0 l).1

/-- Modelled from the spec: the five-step recurrent forward algorithm,
stated independently of the source loop: cast the input, transpose the
incoming state to layers-first, iterate the cells in order from layer 0
(layerStep), stack the collected per-layer states back batch-first, and
apply the output projection to the last cell's full output sequence. -/
def specLSTMForward (layers : List LSTMLayer) (linear : Tensor → Tensor)
    (obs hIn cIn : Tensor) : Tensor × Tensor × Tensor :=
  let x0 := cast32 obs
  let hT := transpose102 hIn
  let cT := transpose102 cIn
  (linear (xAt layers hT cT x0 layers.length),
   stack1 ((List.range layers.length).map fun l => (layerStep layers hT cT x0 l).2.1),
   stack1 ((List.range layers.length).map fun l => (layerStep layers hT cT x0 l).2.2))

/-- Modelled from the spec: an encoder as the actor-critic composite sees
it: its input and output spec dictionaries and its variant body. -/
structure EncM where
  inSpec : SpecF
  outSpec : SpecF
  body : TDataF → TDataF

/-- The contract wrapper of one sub-encoder. -/
def EncM.fwd (e : EncM) : TDataF → Except Violation TDataF :=
  genericForward e.inSpec e.outSpec e.body

/-- Modelled from the spec: the actor-critic composite's forward routes
the same inputs through both sub-encoders and nests each full output
under its own top-level key; a sub-encoder violation surfaces unchanged
(the ActorCriticEncoder base class is outside the provided sources). -/
def acForward (actor critic : EncM) (inputs : TDataF) : Except Violation TDataF :=
  match actor.fwd inputs with
  | .error v => .error v
  | .ok aOut =>
    match critic.fwd inputs with
    | .error v => .error v
    | .ok cOut => .ok (underKey "actor" aOut ++ underKey "critic" cOut)

/-- The base-class initializers that appear in the constructors of
encoder.py: the framework-model initializer TfModel.__init__ and the two
contract-base initializers Encoder.__init__ and
ActorCriticEncoder.__init__ (ActorCriticEncoder being the contract base
of the composite). -/
inductive BaseInit where
  | tfModel
  | encoder
  | actorCriticEncoder
deriving DecidableEq

/-- Is this a contract-base initializer (as opposed to the framework-model
one). -/
def contractInit : BaseInit → Bool
  | .tfModel => false
  | .encoder => true
  | .actorCriticEncoder => true

/-- The base initializers invoked by TfLSTMEncoder.__init__, in order:
only TfModel.__init__ is called. -/
def TfLSTMEncoder.initCalls : List BaseInit := [.tfModel]

/-- The base initializers invoked by TfCNNEncoder.__init__, in order. -/
def TfCNNEncoder.initCalls : List BaseInit := [.tfModel, .encoder]

/-- The base initializers invoked by TfMLPEncoder.__init__, in order. -/
def TfMLPEncoder.initCalls : List BaseInit := [.tfModel, .encoder]

/-- The base initializers invoked by TfActorCriticEncoder.__init__, in
order. -/
def TfActorCriticEncoder.initCalls : List BaseInit := [.tfModel, .actorCriticEncoder]

/-- A concrete CNN configuration: input (4, 4, 3), output features 8. -/
def cnnCfgW : CNNEncoderConfig := ⟨(4, 4, 3), 8⟩

/-- A concrete net satisfying the CNN pipeline shape contract for 8
output features. -/
def cnnNetW : Tensor → Tensor := fun x => ⟨x.shape.take 1 ++ [8], fun _ => 0⟩

/-- A conforming batch-2 observation input for the concrete CNN
configuration. -/
def cnnGoodW : TDataF :=
  [(["obs"], .tensor (Tensor.zeros [2, 4, 4, 3])),
   (["state_in"], .noneV), (["seq_lens"], .noneV)]

/-- The same input with width 5 instead of the configured 4. -/
def cnnBadW : TDataF :=
  [(["obs"], .tensor (Tensor.zeros [2, 5, 4, 3])),
   (["state_in"], .noneV), (["seq_lens"], .noneV)]

/-- A concrete MLP net with 2 output features. -/
def mlpNetW : Tensor → Tensor := fun x => ⟨x.shape.take 1 ++ [2], fun _ => 0⟩

/-- A conforming input for an MLP encoder with input dim 3. -/
def mlpInW : TDataF := [(["obs"], .tensor (Tensor.zeros [1, 3]))]

/-- A concrete LSTM configuration: input dim 4, output dim 8, hidden dim
3, one layer. -/
def lstmCfgW : LSTMEncoderConfig := ⟨4, 8, 3, 1⟩

/-- A concrete layer satisfying the LSTM layer shape contract for 3
units. -/
def lstmLayerW : LSTMLayer := fun x _ _ =>
  (⟨x.shape.take 2 ++ [3], fun _ => 0⟩, ⟨x.shape.take 1 ++ [3], fun _ => 0⟩,
   ⟨x.shape.take 1 ++ [3], fun _ => 0⟩)

/-- A concrete dense layer satisfying the dense shape contract for 8
units. -/
def denseW : Tensor → Tensor := fun x => ⟨x.shape.dropLast ++ [8], fun _ => 0⟩

/-- A conforming batch-2, 5-step input for the concrete LSTM
configuration. -/
def lstmInW : TDataF :=
  [(["obs"], .tensor (Tensor.zeros [2, 5, 4])),
   (["state_in", "h"], .tensor (Tensor.zeros [2, 1, 3])),
   (["state_in", "c"], .tensor (Tensor.zeros [2, 1, 3]))]

/-- The LSTM configuration of the initial-state scenario: input dim 4,
output dim 8, hidden dim 3, one layer. -/
def lstmCfgBug : LSTMEncoderConfig := ⟨4, 8, 3, 1⟩

/-- A forward input assembled from a conforming observation and the
state structure returned by get_initial_state, nested under state_in. -/
def lstmBugInputs : TDataF :=
  (["obs"], .tensor (Tensor.zeros [1, 1, 4])) ::
    underKey "state_in" (TfLSTMEncoder.getInitialState lstmCfgBug)

/-- A trivial sub-encoder for the composite: no constraints, a one-entry
output. -/
def encW : EncM := ⟨[], [], fun _ => [(["encoder_out"], .noneV)]⟩

section Lemmas

lemma getD_mem {α : Type} (xs : List α) (l : Nat) (d : α) (h : l < xs.length) :
    xs.getD l d ∈ xs := by
  induction xs generalizing l with
  | nil => simp at h
  | cons a rest ih =>
    cases l with
    | zero => simp [List.getD]
    | succ k =>
      simp only [List.length_cons, Nat.succ_lt_succ_iff] at h
      exact List.mem_cons_of_mem a (ih k h)

lemma layerStep_eq_xAt (layers : List LSTMLayer) (hT cT x0 : Tensor) (l : Nat) :
    layerStep layers hT cT x0 l =
      (layers.getD l defaultLayer) (xAt layers hT cT x0 l) (slice0 hT l) (slice0 cT l) := by
  cases l <;> rfl

lemma lstmLoop_eq (layers : List LSTMLayer) (hT cT x0 : Tensor) :
    ∀ (ls : List LSTMLayer) (i : Nat), ls = layers.drop i →
      ∀ x, x = xAt layers hT cT x0 i →
      TfLSTMEncoder.lstmLoop ls i x hT cT =
        (xAt layers hT cT x0 (i + ls.length),
         (List.range ls.length).map fun j => (layerStep layers hT cT x0 (i + j)).2.1,
         (List.range ls.length).map fun j => (layerStep layers hT cT x0 (i + j)).2.2) := by
  intro ls
  induction ls with
  | nil => intro i _ x hx; simp [TfLSTMEncoder.lstmLoop, hx]
  | cons a rest ih =>
    intro i hdrop x hx
    have hget : layers.getD i defaultLayer = a := by
      have h0 : layers[i]? = some a := by
        have h1 := List.getElem?_drop layers i 0
        rw [← hdrop] at h1
        simpa using h1.symm
      simp [List.getD, h0]
    have hdrop' : rest = layers.drop (i + 1) := by
      have h2 := List.drop_drop 1 i layers
      rw [← hdrop] at h2
      simpa using h2
    have hstep : a x (slice0 hT i) (slice0 cT i) = layerStep layers hT cT x0 i := by
      rw [layerStep_eq_xAt, hget, hx]
    have hx' : (a x (slice0 hT i) (slice0 cT i)).1 = xAt layers hT cT x0 (i + 1) := by
      rw [hstep]; rfl
    have ihr := ih (i + 1) hdrop' _ hx'
    rw [hstep] at ihr
    simp only [TfLSTMEncoder.lstmLoop]
    rw [hstep, ihr]
    have e1 : xAt layers hT cT x0 (i + 1 + rest.length) =
        xAt layers hT cT x0 (i + (a :: rest).length) := by
      rw [show i + 1 + rest.length = i + (a :: rest).length by
        simp only [List.length_cons]; omega]
    have e2 : ((layerStep layers hT cT x0 i).2.1 ::
        (List.range rest.length).map fun j => (layerStep layers hT cT x0 (i + 1 + j)).2.1) =
        (List.range (a :: rest).length).map fun j => (layerStep layers hT cT x0 (i + j)).2.1 := by
      rw [List.length_cons, List.range_succ_eq_map, List.map_cons, List.map_map]
      refine congrArg₂ List.cons (by simp) ?_
      refine List.map_congr_left fun j _ => ?_
      show (layerStep layers hT cT x0 (i + 1 + j)).2.1 =
        (layerStep layers hT cT x0 (i + (j + 1))).2.1
      rw [show i + 1 + j = i + (j + 1) by omega]
    have e3 : ((layerStep layers hT cT x0 i).2.2 ::
        (List.range rest.length).map fun j => (layerStep layers hT cT x0 (i + 1 + j)).2.2) =
        (List.range (a :: rest).length).map fun j => (layerStep layers hT cT x0 (i + j)).2.2 := by
      rw [List.length_cons, List.range_succ_eq_map, List.map_cons, List.map_map]
      refine congrArg₂ List.cons (by simp) ?_
      refine List.map_congr_left fun j _ => ?_
      show (layerStep layers hT cT x0 (i + 1 + j)).2.2 =
        (layerStep layers hT cT x0 (i + (j + 1))).2.2
      rw [show i + 1 + j = i + (j + 1) by omega]
    rw [e1, e2, e3]

lemma core_eq_spec (layers : List LSTMLayer) (linear : Tensor → Tensor)
    (obs hIn cIn : Tensor) :
    TfLSTMEncoder.core layers linear obs hIn cIn =
      specLSTMForward layers linear obs hIn cIn := by
  have h := lstmLoop_eq layers (transpose102 hIn) (transpose102 cIn) (cast32 obs)
    layers 0 (by simp) (cast32 obs) rfl
  simp only [TfLSTMEncoder.core, specLSTMForward, h, Nat.zero_add]

lemma genericForward_ok (inSpec outSpec : SpecF) (body : TDataF → TDataF)
    (inputs out : TDataF) (h : genericForward inSpec outSpec body inputs = .ok out) :
    validateF inSpec inputs = none ∧ out = body inputs ∧ validateF outSpec out = none := by
  cases hin : validateF inSpec inputs with
  | some e => simp [genericForward, hin] at h
  | none =>
    cases hout : validateF outSpec (body inputs) with
    | some e => simp [genericForward, hin, hout] at h
    | none =>
      simp only [genericForward, hin, hout] at h
      simp only [Except.ok.injEq] at h
      exact ⟨rfl, h.symm, by rw [← h]; exact hout⟩

lemma genericForward_ok_of_valid (inSpec outSpec : SpecF) (body : TDataF → TDataF)
    (inputs : TDataF) (hin : validateF inSpec inputs = none)
    (hout : validateF outSpec (body inputs) = none) :
    genericForward inSpec outSpec body inputs = .ok (body inputs) := by
  simp only [genericForward, hin, hout]

lemma genericForward_inputErr (inSpec outSpec : SpecF) (body : TDataF → TDataF)
    (inputs : TDataF) (p : List String) (d : String)
    (h : validateF inSpec inputs = some (p, d)) :
    genericForward inSpec outSpec body inputs = .error (.inputV p d) := by
  simp only [genericForward, h]

lemma genericForward_outputErr (inSpec outSpec : SpecF) (body : TDataF → TDataF)
    (inputs : TDataF) (p : List String) (d : String)
    (hin : validateF inSpec inputs = none)
    (hout : validateF outSpec (body inputs) = some (p, d)) :
    genericForward inSpec outSpec body inputs = .error (.outputV p d) := by
  simp only [genericForward, hin, hout]

lemma validateF_cons (p : List String) (sl : SLeaf) (spec : SpecF) (d : TDataF) :
    validateF ((p, sl) :: spec) d = none ↔
      (checkEntry d p sl = none ∧ validateF spec d = none) := by
  cases h : checkEntry d p sl <;> simp [validateF, h]

lemma checkEntry_tensor_none (d : TDataF) (p : List String)
    (dims : List (String × Option Nat)) :
    checkEntry d p (.tensor dims) = none ↔
      ∃ t, lookupP d p = some (.tensor t) ∧ vTensor dims t.shape = none := by
  cases h : lookupP d p with
  | none => simp [checkEntry, h]
  | some v =>
    cases v with
    | tensor t => simp [checkEntry, h, Option.map_eq_none']
    | noneV => simp [checkEntry, h]

lemma checkEntry_any_none (d : TDataF) (p : List String) :
    checkEntry d p .anyV = none ↔ hasKeyUnder d p = true := by
  by_cases h : hasKeyUnder d p <;> simp [checkEntry, h]

lemma vTensor_none_length (dims : List (String × Option Nat)) (s : List Nat)
    (h : vTensor dims s = none) : s.length = dims.length := by
  by_cases hl : s.length = dims.length
  · exact hl
  · rw [vTensor, if_neg hl] at h
    exact absurd h (by simp)

lemma vTensor_bd (d0 : Nat) (s : List Nat) :
    vTensor [("b", none), ("d", some d0)] s = none ↔ ∃ b0, s = [b0, d0] := by
  constructor
  · intro h
    have hl := vTensor_none_length _ _ h
    simp only [List.length_cons, List.length_nil] at hl
    obtain ⟨a, b, rfl⟩ := List.length_eq_two.mp hl
    rw [vTensor, if_pos (by simp)] at h
    simp only [vDims] at h
    split_ifs at h with h1
    exact ⟨a, by rw [h1]⟩
  · rintro ⟨b0, rfl⟩
    simp [vTensor, vDims]

lemma vTensor_btd (d0 : Nat) (s : List Nat) :
    vTensor [("b", none), ("t", none), ("d", some d0)] s = none ↔
      ∃ b0 t0, s = [b0, t0, d0] := by
  constructor
  · intro h
    have hl := vTensor_none_length _ _ h
    simp only [List.length_cons, List.length_nil] at hl
    obtain ⟨a, b, c, rfl⟩ := List.length_eq_three.mp hl
    rw [vTensor, if_pos (by simp)] at h
    simp only [vDims] at h
    split_ifs at h with h1
    exact ⟨a, b, by rw [h1]⟩
  · rintro ⟨b0, t0, rfl⟩
    simp [vTensor, vDims]

lemma vTensor_blh (l0 h0 : Nat) (s : List Nat) :
    vTensor [("b", none), ("l", some l0), ("h", some h0)] s = none ↔
      ∃ b0, s = [b0, l0, h0] := by
  constructor
  · intro h
    have hl := vTensor_none_length _ _ h
    simp only [List.length_cons, List.length_nil] at hl
    obtain ⟨a, b, c, rfl⟩ := List.length_eq_three.mp hl
    rw [vTensor, if_pos (by simp)] at h
    simp only [vDims] at h
    split_ifs at h with h1 h2
    exact ⟨a, by rw [h1, h2]⟩
  · rintro ⟨b0, rfl⟩
    simp [vTensor, vDims]

lemma vTensor_bwhc (w0 h0 c0 : Nat) (s : List Nat) :
    vTensor [("b", none), ("w", some w0), ("h", some h0), ("c", some c0)] s = none ↔
      ∃ b0, s = [b0, w0, h0, c0] := by
  constructor
  · intro h
    have hl := vTensor_none_length _ _ h
    simp only [List.length_cons, List.length_nil] at hl
    rcases s with _ | ⟨a, t⟩
    · simp at hl
    · simp only [List.length_cons] at hl
      have hl3 : t.length = 3 := by omega
      obtain ⟨b, c, e, rfl⟩ := List.length_eq_three.mp hl3
      rw [vTensor, if_pos (by simp)] at h
      simp only [vDims] at h
      split_ifs at h with h1 h2 h3
      exact ⟨a, by rw [h1, h2, h3]⟩
  · rintro ⟨b0, rfl⟩
    simp [vTensor, vDims]

lemma lookup_underKey_subDict (d : TDataF) (k0 k : String) (p : List String) :
    lookupP (underKey k (subDict d k0)) (k :: p) = lookupP d (k0 :: p) := by
  induction d with
  | nil => rfl
  | cons e rest ih =>
    obtain ⟨q, v⟩ := e
    cases q with
    | nil => simpa [subDict, underKey, lookupP] using ih
    | cons a q' =>
      by_cases ha : a = k0
      · subst ha
        by_cases hq : q' = p
        · subst hq
          simp [subDict, underKey, lookupP]
        · calc lookupP (underKey k (subDict ((a :: q', v) :: rest) a)) (k :: p)
              = lookupP (underKey k (subDict rest a)) (k :: p) := by
                simp [subDict, underKey, lookupP, hq]
            _ = lookupP rest (a :: p) := ih
            _ = lookupP ((a :: q', v) :: rest) (a :: p) := by
                simp [lookupP, hq]
      · calc lookupP (underKey k (subDict ((a :: q', v) :: rest) k0)) (k :: p)
            = lookupP (underKey k (subDict rest k0)) (k :: p) := by
              simp [subDict, ha]
          _ = lookupP rest (k0 :: p) := ih
          _ = lookupP ((a :: q', v) :: rest) (k0 :: p) := by
              simp [lookupP, ha]

lemma hasKeyUnder_iff (d : TDataF) (q : List String) :
    hasKeyUnder d q = true ↔ ∃ e ∈ d, seg q e.1 = true := by
  simp [hasKeyUnder, List.any_eq_true]

lemma seg_self (q : List String) : seg q q = true := by
  induction q with
  | nil => rfl
  | cons a p ih => simp [seg, ih]

lemma seg_single (k : String) (q : List String) :
    seg [k] q = true ↔ ∃ q1, q = k :: q1 := by
  cases q with
  | nil => simp [seg]
  | cons b q1 =>
    constructor
    · intro h
      simp only [seg, Bool.and_eq_true, beq_iff_eq] at h
      exact ⟨q1, by rw [h.1]⟩
    · rintro ⟨q2, hq⟩
      injection hq with h1 h2
      subst h1
      subst h2
      simp [seg]

lemma seg_pair (k0 k1 : String) (q : List String) :
    seg [k0, k1] q = true ↔ ∃ q1, q = k0 :: k1 :: q1 := by
  cases q with
  | nil => simp [seg]
  | cons b q1 =>
    cases q1 with
    | nil => simp [seg]
    | cons b1 q2 =>
      constructor
      · intro h
        simp only [seg, Bool.and_eq_true, beq_iff_eq] at h
        refine ⟨q2, ?_⟩
        simp_all
      · rintro ⟨q3, hq⟩
        injection hq with h1 hrest
        injection hrest with h2 h3
        subst h1
        subst h2
        subst h3
        simp [seg]

lemma mem_underKey_subDict (d : TDataF) (k0 k : String) (q : List String) (v : TLeaf)
    (h : (k0 :: q, v) ∈ d) : (k :: q, v) ∈ underKey k (subDict d k0) := by
  induction d with
  | nil => simp at h
  | cons e rest ih =>
    rcases List.mem_cons.mp h with h1 | h1
    · rw [← h1]
      simp [subDict, underKey]
    · obtain ⟨p, w⟩ := e
      cases p with
      | nil => simpa [subDict, underKey] using ih h1
      | cons a p1 =>
        by_cases ha : a = k0
        · subst ha
          simp only [subDict, if_pos rfl, underKey, List.map_cons]
          exact List.mem_cons_of_mem _ (ih h1)
        · simpa [subDict, ha] using ih h1

lemma subDict_underKey_same (k : String) (d : TDataF) :
    subDict (underKey k d) k = d := by
  induction d with
  | nil => rfl
  | cons e rest ih =>
    obtain ⟨p, v⟩ := e
    have ih2 : subDict (List.map (fun e => (k :: e.1, e.2)) rest) k = rest := ih
    simp [underKey, subDict, ih2]

lemma subDict_underKey_other (k k1 : String) (h : k ≠ k1) (d : TDataF) :
    subDict (underKey k d) k1 = [] := by
  induction d with
  | nil => rfl
  | cons e rest ih =>
    obtain ⟨p, v⟩ := e
    have ih2 : subDict (List.map (fun e => (k :: e.1, e.2)) rest) k1 = [] := ih
    simp [underKey, subDict, h, ih2]

lemma subDict_append (d1 d2 : TDataF) (k : String) :
    subDict (d1 ++ d2) k = subDict d1 k ++ subDict d2 k := by
  induction d1 with
  | nil => rfl
  | cons e rest ih =>
    obtain ⟨p, v⟩ := e
    cases p with
    | nil => simpa [subDict] using ih
    | cons a p1 =>
      by_cases ha : a = k
      · simp [subDict, ha, ih]
      · simp [subDict, ha, ih]

end Lemmas

section ShapeLemmas

lemma transpose102_shape (t : Tensor) (a b : Nat) (rest : List Nat)
    (h : t.shape = a :: b :: rest) : (transpose102 t).shape = b :: a :: rest := by
  simp [transpose102, h]

lemma slice0_shape (t : Tensor) (i : Nat) : (slice0 t i).shape = t.shape.tail := rfl

lemma stack1_shape_cons (t : Tensor) (ts : List Tensor) :
    (stack1 (t :: ts)).shape = t.shape.take 1 ++ (t :: ts).length :: t.shape.drop 1 := rfl

lemma xAt_shape (layers : List LSTMLayer) (hT cT x0 : Tensor) (units b t d0 : Nat)
    (hc : ∀ la ∈ layers, LSTMLayerShapeOK units la) (hx : x0.shape = [b, t, d0]) :
    ∀ l, l ≤ layers.length → ∃ dd, (xAt layers hT cT x0 l).shape = [b, t, dd] := by
  intro l
  induction l with
  | zero => intro _; exact ⟨d0, hx⟩
  | succ n ih =>
    intro hn
    obtain ⟨dd, hdd⟩ := ih (Nat.le_of_succ_le hn)
    have hmem : layers.getD n defaultLayer ∈ layers :=
      getD_mem layers n defaultLayer (Nat.lt_of_succ_le hn)
    have hco := (hc _ hmem (xAt layers hT cT x0 n) (slice0 hT n) (slice0 cT n)).1
    refine ⟨units, ?_⟩
    show ((layerStep layers hT cT x0 n).1).shape = [b, t, units]
    rw [layerStep_eq_xAt, hco, hdd]
    rfl

lemma layerStep_state_shape (layers : List LSTMLayer) (hT cT x0 : Tensor)
    (units b t d0 : Nat) (hc : ∀ la ∈ layers, LSTMLayerShapeOK units la)
    (hx : x0.shape = [b, t, d0]) (l : Nat) (hl : l < layers.length) :
    ((layerStep layers hT cT x0 l).2.1).shape = [b, units]
      ∧ ((layerStep layers hT cT x0 l).2.2).shape = [b, units] := by
  obtain ⟨dd, hdd⟩ := xAt_shape layers hT cT x0 units b t d0 hc hx l (Nat.le_of_lt hl)
  have hmem : layers.getD l defaultLayer ∈ layers := getD_mem layers l defaultLayer hl
  have hco := hc _ hmem (xAt layers hT cT x0 l) (slice0 hT l) (slice0 cT l)
  constructor
  · rw [layerStep_eq_xAt, hco.2.1, hdd]
    rfl
  · rw [layerStep_eq_xAt, hco.2.2, hdd]
    rfl

lemma core_stateOut_shape (layers : List LSTMLayer) (linear : Tensor → Tensor)
    (obs hIn cIn : Tensor) (units b t d0 : Nat)
    (hc : ∀ la ∈ layers, LSTMLayerShapeOK units la)
    (hobs : obs.shape = [b, t, d0]) (hpos : 0 < layers.length) :
    ((TfLSTMEncoder.core layers linear obs hIn cIn).2.1).shape = [b, layers.length, units]
      ∧ ((TfLSTMEncoder.core layers linear obs hIn cIn).2.2).shape
          = [b, layers.length, units] := by
  rw [core_eq_spec]
  have hx0 : (cast32 obs).shape = [b, t, d0] := hobs
  obtain ⟨n, hn⟩ : ∃ n, layers.length = n + 1 :=
    ⟨layers.length - 1, by omega⟩
  set hT := transpose102 hIn
  set cT := transpose102 cIn
  have hrange : List.range layers.length = 0 :: (List.range n).map Nat.succ := by
    rw [hn, List.range_succ_eq_map]
  have h0 := layerStep_state_shape layers hT cT (cast32 obs) units b t d0 hc hx0 0 hpos
  constructor
  · show (stack1 ((List.range layers.length).map fun l =>
      (layerStep layers hT cT (cast32 obs) l).2.1)).shape = _
    rw [hrange, List.map_cons, stack1_shape_cons, h0.1]
    simp [hn]
  · show (stack1 ((List.range layers.length).map fun l =>
      (layerStep layers hT cT (cast32 obs) l).2.2)).shape = _
    rw [hrange, List.map_cons, stack1_shape_cons, h0.2]
    simp [hn]

lemma core_encoderOut_shape (layers : List LSTMLayer) (linear : Tensor → Tensor)
    (obs hIn cIn : Tensor) (units out0 b t d0 : Nat)
    (hc : ∀ la ∈ layers, LSTMLayerShapeOK units la)
    (hlin : DenseShapeOK out0 linear)
    (hobs : obs.shape = [b, t, d0]) :
    ((TfLSTMEncoder.core layers linear obs hIn cIn).1).shape = [b, t, out0] := by
  rw [core_eq_spec]
  have hx0 : (cast32 obs).shape = [b, t, d0] := hobs
  obtain ⟨dd, hdd⟩ := xAt_shape layers (transpose102 hIn) (transpose102 cIn)
    (cast32 obs) units b t d0 hc hx0 layers.length (Nat.le_refl _)
  show (linear (xAt layers (transpose102 hIn) (transpose102 cIn) (cast32 obs)
      layers.length)).shape = [b, t, out0]
  rw [hlin, hdd]
  rfl

lemma lstmLoop_full (layers : List LSTMLayer) (hT cT x0 : Tensor) :
    TfLSTMEncoder.lstmLoop layers 0 x0 hT cT =
      (xAt layers hT cT x0 layers.length,
       (List.range layers.length).map fun j => (layerStep layers hT cT x0 j).2.1,
       (List.range layers.length).map fun j => (layerStep layers hT cT x0 j).2.2) := by
  have h := lstmLoop_eq layers hT cT x0 layers 0 (by simp) x0 rfl
  simpa using h

lemma getD_map_range {α : Type} (n l : Nat) (f : Nat → α) (d : α) (hl : l < n) :
    ((List.range n).map f).getD l d = f l := by
  rw [List.getD_eq_getElem?_getD, List.getElem?_map, List.getElem?_range hl]
  rfl

lemma stack1_data (ts : List Tensor) (i l : Nat) (rest : List Nat) :
    (stack1 ts).data (i :: l :: rest) = (ts.getD l defaultTensor).data (i :: rest) := rfl

lemma cnn_forwardBody_valid (cfg : CNNEncoderConfig) (net : Tensor → Tensor)
    (inputs : TDataF) (hnet : NetShapeOK cfg.outputDims0 net)
    (hv : validateF (TfCNNEncoder.getInputSpecs cfg) inputs = none) :
    validateF (TfCNNEncoder.getOutputSpecs cfg)
      (TfCNNEncoder.forwardBody net inputs) = none := by
  rw [TfCNNEncoder.getInputSpecs] at hv
  obtain ⟨h1, h2⟩ := (validateF_cons _ _ _ _).mp hv
  obtain ⟨h3, _⟩ := (validateF_cons _ _ _ _).mp h2
  obtain ⟨t, hlk, hvt⟩ := (checkEntry_tensor_none _ _ _).mp h1
  obtain ⟨b0, hshape⟩ := (vTensor_bwhc _ _ _ _).mp hvt
  have hstate := (checkEntry_any_none _ _).mp h3
  have htA : tensorAt inputs ["obs"] = t := by rw [tensorAt, hlk]
  rw [TfCNNEncoder.getOutputSpecs]
  refine (validateF_cons _ _ _ _).mpr ⟨?_, (validateF_cons _ _ _ _).mpr ⟨?_, rfl⟩⟩
  · refine (checkEntry_tensor_none _ _ _).mpr ⟨net t, ?_, ?_⟩
    · simp [TfCNNEncoder.forwardBody, lookupP, htA]
    · refine (vTensor_bd _ _).mpr ⟨b0, ?_⟩
      rw [hnet t, hshape]
      rfl
  · refine (checkEntry_any_none _ _).mpr ?_
    obtain ⟨e, he, hseg⟩ := (hasKeyUnder_iff _ _).mp hstate
    obtain ⟨q1, hq⟩ := (seg_single _ _).mp hseg
    refine (hasKeyUnder_iff _ _).mpr ⟨("state_out" :: q1, e.2), ?_, ?_⟩
    · refine List.mem_cons_of_mem _ ?_
      apply mem_underKey_subDict
      have he2 : ("state_in" :: q1, e.2) ∈ inputs := by
        rw [← hq]
        simpa using he
      exact he2
    · simp [seg]

lemma mlp_forwardBody_valid (cfg : MLPEncoderConfig) (net : Tensor → Tensor)
    (inputs : TDataF) (hnet : NetShapeOK cfg.outputDims0 net)
    (hv : validateF (TfMLPEncoder.getInputSpecs cfg) inputs = none) :
    validateF (TfMLPEncoder.getOutputSpecs cfg)
      (TfMLPEncoder.forwardBody net inputs) = none := by
  rw [TfMLPEncoder.getInputSpecs] at hv
  obtain ⟨h1, _⟩ := (validateF_cons _ _ _ _).mp hv
  obtain ⟨t, hlk, hvt⟩ := (checkEntry_tensor_none _ _ _).mp h1
  obtain ⟨b0, hshape⟩ := (vTensor_bd _ _).mp hvt
  have htA : tensorAt inputs ["obs"] = t := by rw [tensorAt, hlk]
  rw [TfMLPEncoder.getOutputSpecs]
  refine (validateF_cons _ _ _ _).mpr ⟨?_, (validateF_cons _ _ _ _).mpr ⟨?_, rfl⟩⟩
  · refine (checkEntry_tensor_none _ _ _).mpr ⟨net t, ?_, ?_⟩
    · simp [TfMLPEncoder.forwardBody, lookupP, htA]
    · refine (vTensor_bd _ _).mpr ⟨b0, ?_⟩
      rw [hnet t, hshape]
      rfl
  · refine (checkEntry_any_none _ _).mpr ?_
    refine (hasKeyUnder_iff _ _).mpr ⟨(["state_out"], .noneV), ?_, ?_⟩
    · simp [TfMLPEncoder.forwardBody]
    · simp [seg]

lemma lstm_forwardBody_valid (cfg : LSTMEncoderConfig) (layers : List LSTMLayer)
    (linear : Tensor → Tensor) (inputs : TDataF)
    (hc : ∀ la ∈ layers, LSTMLayerShapeOK cfg.hiddenDim la)
    (hlin : DenseShapeOK cfg.outputDims0 linear)
    (hlen : layers.length = cfg.numLstmLayers)
    (hpos : 0 < layers.length)
    (hv : validateF (TfLSTMEncoder.getInputSpecs cfg) inputs = none) :
    validateF (TfLSTMEncoder.getOutputSpecs cfg)
      (TfLSTMEncoder.forwardBody layers linear inputs) = none := by
  rw [TfLSTMEncoder.getInputSpecs] at hv
  obtain ⟨h1, h2⟩ := (validateF_cons _ _ _ _).mp hv
  obtain ⟨h3, h4⟩ := (validateF_cons _ _ _ _).mp h2
  obtain ⟨h5, _⟩ := (validateF_cons _ _ _ _).mp h4
  obtain ⟨t, hlk, hvt⟩ := (checkEntry_tensor_none _ _ _).mp h1
  obtain ⟨b0, t0, hshape⟩ := (vTensor_btd _ _).mp hvt
  obtain ⟨th, hlkh, _⟩ := (checkEntry_tensor_none _ _ _).mp h3
  obtain ⟨tc, hlkc, _⟩ := (checkEntry_tensor_none _ _ _).mp h5
  have htA : tensorAt inputs ["obs"] = t := by rw [tensorAt, hlk]
  have htH : tensorAt inputs ["state_in", "h"] = th := by rw [tensorAt, hlkh]
  have htC : tensorAt inputs ["state_in", "c"] = tc := by rw [tensorAt, hlkc]
  have hout := core_encoderOut_shape layers linear t th tc cfg.hiddenDim
    cfg.outputDims0 b0 t0 cfg.inputDims0 hc hlin hshape
  have hst := core_stateOut_shape layers linear t th tc cfg.hiddenDim b0 t0
    cfg.inputDims0 hc hshape hpos
  rw [TfLSTMEncoder.getOutputSpecs]
  refine (validateF_cons _ _ _ _).mpr ⟨?_,
    (validateF_cons _ _ _ _).mpr ⟨?_, (validateF_cons _ _ _ _).mpr ⟨?_, rfl⟩⟩⟩
  · refine (checkEntry_tensor_none _ _ _).mpr
      ⟨(TfLSTMEncoder.core layers linear t th tc).1, ?_, ?_⟩
    · simp [TfLSTMEncoder.forwardBody, lookupP, htA, htH, htC]
    · exact (vTensor_btd _ _).mpr ⟨b0, t0, hout⟩
  · refine (checkEntry_tensor_none _ _ _).mpr
      ⟨(TfLSTMEncoder.core layers linear t th tc).2.1, ?_, ?_⟩
    · simp [TfLSTMEncoder.forwardBody, lookupP, htA, htH, htC]
    · refine (vTensor_blh _ _ _).mpr ⟨b0, ?_⟩
      rw [hst.1, hlen]
  · refine (checkEntry_tensor_none _ _ _).mpr
      ⟨(TfLSTMEncoder.core layers linear t th tc).2.2, ?_, ?_⟩
    · simp [TfLSTMEncoder.forwardBody, lookupP, htA, htH, htC]
    · refine (vTensor_blh _ _ _).mpr ⟨b0, ?_⟩
      rw [hst.2, hlen]

end ShapeLemmas

/-- C1: in TfLSTMEncoder._forward the state layout conversion is
symmetric: the state is transposed from batch-first to layers-first, layer
l consumes its own slice (the layers-first slice at l equals the
batch-first entry at [b, l, h]), and the per-layer hidden and cell
outputs stacked back along axis 1 give batch-first tensors whose element
at [batch = b, layer = l, hidden = h] equals the value the layer-l
computation produced for batch b at hidden index h: no index permutation
occurs in the round trip. -/
theorem lstm_state_layout_roundtrip (layers : List LSTMLayer)
    (linear : Tensor → Tensor) (obs hIn cIn : Tensor) (b l h : Nat)
    (hl : l < layers.length) :
    ((TfLSTMEncoder.core layers linear obs hIn cIn).2.1).data [b, l, h] =
      ((layerStep layers (transpose102 hIn) (transpose102 cIn)
        (cast32 obs) l).2.1).data [b, h]
    ∧ ((TfLSTMEncoder.core layers linear obs hIn cIn).2.2).data [b, l, h] =
      ((layerStep layers (transpose102 hIn) (transpose102 cIn)
        (cast32 obs) l).2.2).data [b, h]
    ∧ (slice0 (transpose102 hIn) l).data [b, h] = hIn.data [b, l, h] := by
  rw [core_eq_spec]
  refine ⟨?_, ?_, rfl⟩
  · show (stack1 ((List.range layers.length).map fun j =>
      (layerStep layers (transpose102 hIn) (transpose102 cIn)
        (cast32 obs) j).2.1)).data [b, l, h] = _
    rw [stack1_data, getD_map_range _ _ _ _ hl]
  · show (stack1 ((List.range layers.length).map fun j =>
      (layerStep layers (transpose102 hIn) (transpose102 cIn)
        (cast32 obs) j).2.2)).data [b, l, h] = _
    rw [stack1_data, getD_map_range _ _ _ _ hl]

/-- Witness for C1 at the spec's synthetic scenario: batch 2, one layer,
hidden dim 3, element (batch 1, layer 0, hidden 2). -/
theorem lstm_state_layout_roundtrip_witness :
    ((TfLSTMEncoder.core [lstmLayerW] denseW (Tensor.zeros [2, 1, 4])
        (Tensor.zeros [2, 1, 3]) (Tensor.zeros [2, 1, 3])).2.1).data [1, 0, 2] =
      ((layerStep [lstmLayerW] (transpose102 (Tensor.zeros [2, 1, 3]))
        (transpose102 (Tensor.zeros [2, 1, 3]))
        (cast32 (Tensor.zeros [2, 1, 4])) 0).2.1).data [1, 2]
    ∧ ((TfLSTMEncoder.core [lstmLayerW] denseW (Tensor.zeros [2, 1, 4])
        (Tensor.zeros [2, 1, 3]) (Tensor.zeros [2, 1, 3])).2.2).data [1, 0, 2] =
      ((layerStep [lstmLayerW] (transpose102 (Tensor.zeros [2, 1, 3]))
        (transpose102 (Tensor.zeros [2, 1, 3]))
        (cast32 (Tensor.zeros [2, 1, 4])) 0).2.2).data [1, 2]
    ∧ (slice0 (transpose102 (Tensor.zeros [2, 1, 3])) 0).data [1, 2] =
      (Tensor.zeros [2, 1, 3]).data [1, 0, 2] :=
  lstm_state_layout_roundtrip [lstmLayerW] denseW (Tensor.zeros [2, 1, 4])
    (Tensor.zeros [2, 1, 3]) (Tensor.zeros [2, 1, 3]) 1 0 2 (by simp)

/-- C2: forward obeys the spec contract on every variant: a CNN, MLP or
LSTM input that validates against get_input_specs makes forward succeed
with a result that validates against get_output_specs; any input whose
validation reports an offending key makes forward fail with an
InputSpecViolation naming that key; the concrete CNN scenario with
input_dims (4,4,3) and output_dims (8,) maps a (2,4,4,3) observation to a
(2,8) encoder output and rejects a (2,5,4,3) observation naming the width
dimension; and an out-of-spec _forward result makes forward fail with an
OutputSpecViolation naming the offending key. -/
theorem forward_spec_contract :
    (∀ (cfg : CNNEncoderConfig) (net : Tensor → Tensor) (inputs : TDataF),
      NetShapeOK cfg.outputDims0 net →
      validateF (TfCNNEncoder.getInputSpecs cfg) inputs = none →
      TfCNNEncoder.forward cfg net inputs = .ok (TfCNNEncoder.forwardBody net inputs)
        ∧ validateF (TfCNNEncoder.getOutputSpecs cfg)
            (TfCNNEncoder.forwardBody net inputs) = none)
    ∧ (∀ (cfg : MLPEncoderConfig) (net : Tensor → Tensor) (inputs : TDataF),
      NetShapeOK cfg.outputDims0 net →
      validateF (TfMLPEncoder.getInputSpecs cfg) inputs = none →
      TfMLPEncoder.forward cfg net inputs = .ok (TfMLPEncoder.forwardBody net inputs)
        ∧ validateF (TfMLPEncoder.getOutputSpecs cfg)
            (TfMLPEncoder.forwardBody net inputs) = none)
    ∧ (∀ (cfg : LSTMEncoderConfig) (layers : List LSTMLayer)
        (linear : Tensor → Tensor) (inputs : TDataF),
      (∀ la ∈ layers, LSTMLayerShapeOK cfg.hiddenDim la) →
      DenseShapeOK cfg.outputDims0 linear →
      layers.length = cfg.numLstmLayers → 0 < layers.length →
      validateF (TfLSTMEncoder.getInputSpecs cfg) inputs = none →
      TfLSTMEncoder.forward cfg layers linear inputs =
          .ok (TfLSTMEncoder.forwardBody layers linear inputs)
        ∧ validateF (TfLSTMEncoder.getOutputSpecs cfg)
            (TfLSTMEncoder.forwardBody layers linear inputs) = none)
    ∧ (∀ (inSpec outSpec : SpecF) (body : TDataF → TDataF) (inputs : TDataF)
        (p : List String) (dtl : String),
      validateF inSpec inputs = some (p, dtl) →
      genericForward inSpec outSpec body inputs = .error (.inputV p dtl))
    ∧ (∀ (inSpec outSpec : SpecF) (body : TDataF → TDataF) (inputs : TDataF)
        (p : List String) (dtl : String),
      validateF inSpec inputs = none →
      validateF outSpec (body inputs) = some (p, dtl) →
      genericForward inSpec outSpec body inputs = .error (.outputV p dtl))
    ∧ TfCNNEncoder.forward cnnCfgW cnnNetW cnnBadW = .error (.inputV ["obs"] "w")
    ∧ (TfCNNEncoder.forward cnnCfgW cnnNetW cnnGoodW =
        .ok (TfCNNEncoder.forwardBody cnnNetW cnnGoodW)
      ∧ lookupP (TfCNNEncoder.forwardBody cnnNetW cnnGoodW) ["encoder_out"] =
          some (.tensor (cnnNetW (Tensor.zeros [2, 4, 4, 3])))
      ∧ (cnnNetW (Tensor.zeros [2, 4, 4, 3])).shape = [2, 8]) := by
  refine ⟨?_, ?_, ?_, ?_, ?_, rfl, rfl, rfl, rfl⟩
  · intro cfg net inputs hnet hv
    have hb := cnn_forwardBody_valid cfg net inputs hnet hv
    exact ⟨genericForward_ok_of_valid _ _ _ _ hv hb, hb⟩
  · intro cfg net inputs hnet hv
    have hb := mlp_forwardBody_valid cfg net inputs hnet hv
    exact ⟨genericForward_ok_of_valid _ _ _ _ hv hb, hb⟩
  · intro cfg layers linear inputs hc hlin hlen hpos hv
    have hb := lstm_forwardBody_valid cfg layers linear inputs hc hlin hlen hpos hv
    exact ⟨genericForward_ok_of_valid _ _ _ _ hv hb, hb⟩
  · intro inSpec outSpec body inputs p dtl hvi
    exact genericForward_inputErr inSpec outSpec body inputs p dtl hvi
  · intro inSpec outSpec body inputs p dtl hvi hvo
    exact genericForward_outputErr inSpec outSpec body inputs p dtl hvi hvo

/-- Witness for C2: the CNN conjunct at the concrete (4,4,3) to (8,)
configuration and the LSTM conjunct at a one-layer hidden-dim-3
configuration, with all contract hypotheses discharged concretely. -/
theorem forward_spec_contract_witness :
    (TfCNNEncoder.forward cnnCfgW cnnNetW cnnGoodW =
        .ok (TfCNNEncoder.forwardBody cnnNetW cnnGoodW)
      ∧ validateF (TfCNNEncoder.getOutputSpecs cnnCfgW)
          (TfCNNEncoder.forwardBody cnnNetW cnnGoodW) = none)
    ∧ (TfLSTMEncoder.forward lstmCfgW [lstmLayerW] denseW lstmInW =
        .ok (TfLSTMEncoder.forwardBody [lstmLayerW] denseW lstmInW)
      ∧ validateF (TfLSTMEncoder.getOutputSpecs lstmCfgW)
          (TfLSTMEncoder.forwardBody [lstmLayerW] denseW lstmInW) = none) :=
  ⟨forward_spec_contract.1 cnnCfgW cnnNetW cnnGoodW (fun _ => rfl) rfl,
   forward_spec_contract.2.2.1 lstmCfgW [lstmLayerW] denseW lstmInW
     (by
       intro la hla
       rw [List.mem_singleton] at hla
       subst hla
       exact fun x h c => ⟨rfl, rfl, rfl⟩)
     (fun _ => rfl) rfl (by simp) rfl⟩

/-- C3 (refuting theorem for the code bug): the state structure returned
by TfLSTMEncoder.get_initial_state does not match the recurrent state
shape declared in get_input_specs: its entries are rank-2
(num_layers, hidden_dim) tensors while the spec requires rank-3 (b, l, h)
tensors, so feeding it as state-in makes input validation, and hence
forward, fail with a rank violation on the state key instead of
succeeding; moreover the source reads a num_layers configuration field
that the recurrent encoder configuration does not supply. -/
theorem lstm_initial_state_violates_input_spec :
    validateF (TfLSTMEncoder.getInputSpecs lstmCfgBug) lstmBugInputs =
      some (["state_in", "h"], "rank")
    ∧ "num_layers" ∉ lstmConfigFields := by
  exact ⟨rfl, by decide⟩

/-- C4: TfLSTMEncoder._forward follows the five-step algorithm: it equals
the spec-side pipeline that casts the observation, transposes the
incoming state from batch-first to layers-first, iterates the cells in
fixed order from layer 0 with each cell consuming its own state slice and
the previous cell's sequence output, stacks the collected per-layer
states back into batch-first tensors, and applies the linear projection
to the last cell's full output sequence (for a nonempty layer stack the
projected tensor is exactly the last cell's sequence output). -/
theorem lstm_forward_algorithm (layers : List LSTMLayer)
    (linear : Tensor → Tensor) (obs hIn cIn : Tensor) :
    TfLSTMEncoder.core layers linear obs hIn cIn =
      specLSTMForward layers linear obs hIn cIn
    ∧ (0 < layers.length →
        xAt layers (transpose102 hIn) (transpose102 cIn) (cast32 obs)
            layers.length =
          (layerStep layers (transpose102 hIn) (transpose102 cIn) (cast32 obs)
            (layers.length - 1)).1) := by
  refine ⟨core_eq_spec layers linear obs hIn cIn, ?_⟩
  intro hpos
  obtain ⟨n, hn⟩ : ∃ n, layers.length = n + 1 := ⟨layers.length - 1, by omega⟩
  rw [hn]
  simp [xAt]

/-- Witness for C4 at a one-layer configuration. -/
theorem lstm_forward_algorithm_witness :
    TfLSTMEncoder.core [lstmLayerW] denseW (Tensor.zeros [2, 1, 4])
        (Tensor.zeros [2, 1, 3]) (Tensor.zeros [2, 1, 3]) =
      specLSTMForward [lstmLayerW] denseW (Tensor.zeros [2, 1, 4])
        (Tensor.zeros [2, 1, 3]) (Tensor.zeros [2, 1, 3])
    ∧ xAt [lstmLayerW] (transpose102 (Tensor.zeros [2, 1, 3]))
        (transpose102 (Tensor.zeros [2, 1, 3]))
        (cast32 (Tensor.zeros [2, 1, 4])) 1 =
      (layerStep [lstmLayerW] (transpose102 (Tensor.zeros [2, 1, 3]))
        (transpose102 (Tensor.zeros [2, 1, 3]))
        (cast32 (Tensor.zeros [2, 1, 4])) 0).1 :=
  ⟨(lstm_forward_algorithm [lstmLayerW] denseW (Tensor.zeros [2, 1, 4])
      (Tensor.zeros [2, 1, 3]) (Tensor.zeros [2, 1, 3])).1,
   (lstm_forward_algorithm [lstmLayerW] denseW (Tensor.zeros [2, 1, 4])
      (Tensor.zeros [2, 1, 3]) (Tensor.zeros [2, 1, 3])).2 (by simp)⟩

/-- C5: the recurrent encoder's output spec mirrors the input spec's
state entries exactly, and for a spec-conforming input (with the batch
dimension shared between observation and state, as state threading
requires) the state-out tensors produced by _forward have exactly the
shape of the state-in tensors. -/
theorem lstm_state_shape_stable (cfg : LSTMEncoderConfig)
    (layers : List LSTMLayer) (linear : Tensor → Tensor)
    (obs hIn cIn : Tensor) (b t : Nat)
    (hc : ∀ la ∈ layers, LSTMLayerShapeOK cfg.hiddenDim la)
    (hlen : layers.length = cfg.numLstmLayers)
    (hpos : 0 < layers.length)
    (hobs : obs.shape = [b, t, cfg.inputDims0])
    (hh : hIn.shape = [b, cfg.numLstmLayers, cfg.hiddenDim])
    (hcs : cIn.shape = [b, cfg.numLstmLayers, cfg.hiddenDim]) :
    lookupSpec (TfLSTMEncoder.getOutputSpecs cfg) ["state_out", "h"] =
      lookupSpec (TfLSTMEncoder.getInputSpecs cfg) ["state_in", "h"]
    ∧ lookupSpec (TfLSTMEncoder.getOutputSpecs cfg) ["state_out", "c"] =
      lookupSpec (TfLSTMEncoder.getInputSpecs cfg) ["state_in", "c"]
    ∧ ((TfLSTMEncoder.core layers linear obs hIn cIn).2.1).shape = hIn.shape
    ∧ ((TfLSTMEncoder.core layers linear obs hIn cIn).2.2).shape = cIn.shape := by
  have hshape := core_stateOut_shape layers linear obs hIn cIn cfg.hiddenDim
    b t cfg.inputDims0 hc hobs hpos
  refine ⟨rfl, rfl, ?_, ?_⟩
  · rw [hshape.1, hh, hlen]
  · rw [hshape.2, hcs, hlen]

/-- Witness for C5 at the concrete one-layer hidden-dim-3
configuration. -/
theorem lstm_state_shape_stable_witness :
    lookupSpec (TfLSTMEncoder.getOutputSpecs lstmCfgW) ["state_out", "h"] =
      lookupSpec (TfLSTMEncoder.getInputSpecs lstmCfgW) ["state_in", "h"]
    ∧ lookupSpec (TfLSTMEncoder.getOutputSpecs lstmCfgW) ["state_out", "c"] =
      lookupSpec (TfLSTMEncoder.getInputSpecs lstmCfgW) ["state_in", "c"]
    ∧ ((TfLSTMEncoder.core [lstmLayerW] denseW (Tensor.zeros [2, 5, 4])
        (Tensor.zeros [2, 1, 3]) (Tensor.zeros [2, 1, 3])).2.1).shape =
      (Tensor.zeros [2, 1, 3]).shape
    ∧ ((TfLSTMEncoder.core [lstmLayerW] denseW (Tensor.zeros [2, 5, 4])
        (Tensor.zeros [2, 1, 3]) (Tensor.zeros [2, 1, 3])).2.2).shape =
      (Tensor.zeros [2, 1, 3]).shape :=
  lstm_state_shape_stable lstmCfgW [lstmLayerW] denseW (Tensor.zeros [2, 5, 4])
    (Tensor.zeros [2, 1, 3]) (Tensor.zeros [2, 1, 3]) 2 5
    (by
      intro la hla
      rw [List.mem_singleton] at hla
      subst hla
      exact fun x h c => ⟨rfl, rfl, rfl⟩)
    rfl (by simp) rfl rfl rfl

/-- C6: the MLP encoder never carries recurrent state: whatever the input
holds under state-in (absent, zero or arbitrary), the state-out entry of
the _forward body, and hence of every successful forward result, is the
fixed None value. -/
theorem mlp_state_out_always_none :
    (∀ (net : Tensor → Tensor) (inputs : TDataF),
      lookupP (TfMLPEncoder.forwardBody net inputs) ["state_out"] =
        some .noneV)
    ∧ ∀ (cfg : MLPEncoderConfig) (net : Tensor → Tensor) (inputs out : TDataF),
        TfMLPEncoder.forward cfg net inputs = .ok out →
        lookupP out ["state_out"] = some .noneV := by
  constructor
  · intro net inputs
    simp [TfMLPEncoder.forwardBody, lookupP]
  · intro cfg net inputs out h
    obtain ⟨_, hout, _⟩ := genericForward_ok _ _ _ _ _ h
    rw [hout]
    simp [TfMLPEncoder.forwardBody, lookupP]

/-- Witness for C6 at a concrete configuration and input carrying an
arbitrary state-in value. -/
theorem mlp_state_out_always_none_witness :
    lookupP (TfMLPEncoder.forwardBody mlpNetW
      ((["state_in"], TLeaf.tensor (Tensor.zeros [7])) :: mlpInW))
      ["state_out"] = some TLeaf.noneV :=
  mlp_state_out_always_none.1 mlpNetW
    ((["state_in"], TLeaf.tensor (Tensor.zeros [7])) :: mlpInW)

/-- C7: the memoryless CNN encoder passes state straight through: every
entry stored under state-in in the input reappears unchanged under
state-out in the _forward result. -/
theorem cnn_state_passthrough (net : Tensor → Tensor) (inputs : TDataF)
    (p : List String) (v : TLeaf)
    (h : lookupP inputs ("state_in" :: p) = some v) :
    lookupP (TfCNNEncoder.forwardBody net inputs) ("state_out" :: p) = some v := by
  have hne : (["encoder_out"] : List String) ≠ "state_out" :: p := by
    intro hcase
    injection hcase with h1 _
    exact absurd h1 (by decide)
  show lookupP ((["encoder_out"], .tensor (net (tensorAt inputs ["obs"]))) ::
      underKey "state_out" (subDict inputs "state_in")) ("state_out" :: p) = some v
  rw [lookupP, if_neg hne, lookup_underKey_subDict]
  exact h

/-- Witness for C7: a nested state entry is passed through unchanged. -/
theorem cnn_state_passthrough_witness :
    lookupP (TfCNNEncoder.forwardBody cnnNetW
        [(["state_in", "h"], TLeaf.tensor (Tensor.zeros [1, 2]))])
      ["state_out", "h"] = some (TLeaf.tensor (Tensor.zeros [1, 2])) :=
  cnn_state_passthrough cnnNetW
    [(["state_in", "h"], TLeaf.tensor (Tensor.zeros [1, 2]))] ["h"]
    (TLeaf.tensor (Tensor.zeros [1, 2])) rfl

/-- C8: for every configuration, the output specs of the CNN, MLP and
recurrent encoders declare the encoder-output entry with feature
dimension bound to the configured output_dims[0] and the batch (and, for
the recurrent variant, time) dimensions unconstrained. -/
theorem output_specs_feature_dim (cfgC : CNNEncoderConfig)
    (cfgM : MLPEncoderConfig) (cfgL : LSTMEncoderConfig) :
    lookupSpec (TfCNNEncoder.getOutputSpecs cfgC) ["encoder_out"] =
      some (.tensor [("b", none), ("d", some cfgC.outputDims0)])
    ∧ lookupSpec (TfMLPEncoder.getOutputSpecs cfgM) ["encoder_out"] =
      some (.tensor [("b", none), ("d", some cfgM.outputDims0)])
    ∧ lookupSpec (TfLSTMEncoder.getOutputSpecs cfgL) ["encoder_out"] =
      some (.tensor [("b", none), ("t", none), ("d", some cfgL.outputDims0)]) :=
  ⟨rfl, rfl, rfl⟩

/-- C9: the actor-critic composite's forward calls both sub-encoders on
the same inputs and, when both succeed with nonempty outputs, returns a
dict whose top-level keys are exactly the actor and critic keys, holding
each sub-encoder's full output, each validating against that
sub-encoder's own output specs. -/
theorem ac_forward_routes (actor critic : EncM) (inputs aOut cOut : TDataF)
    (ha : actor.fwd inputs = .ok aOut) (hcr : critic.fwd inputs = .ok cOut)
    (hna : aOut ≠ []) (hnc : cOut ≠ []) :
    acForward actor critic inputs =
      .ok (underKey "actor" aOut ++ underKey "critic" cOut)
    ∧ (∀ e ∈ underKey "actor" aOut ++ underKey "critic" cOut,
        e.1.head? = some "actor" ∨ e.1.head? = some "critic")
    ∧ (∃ e ∈ underKey "actor" aOut ++ underKey "critic" cOut,
        e.1.head? = some "actor")
    ∧ (∃ e ∈ underKey "actor" aOut ++ underKey "critic" cOut,
        e.1.head? = some "critic")
    ∧ subDict (underKey "actor" aOut ++ underKey "critic" cOut) "actor" = aOut
    ∧ subDict (underKey "actor" aOut ++ underKey "critic" cOut) "critic" = cOut
    ∧ validateF actor.outSpec aOut = none
    ∧ validateF critic.outSpec cOut = none := by
  obtain ⟨a0, aRest, rfl⟩ := List.exists_cons_of_ne_nil hna
  obtain ⟨c0, cRest, rfl⟩ := List.exists_cons_of_ne_nil hnc
  refine ⟨by simp [acForward, ha, hcr], ?_, ?_, ?_, ?_, ?_, ?_, ?_⟩
  · intro e he
    rcases List.mem_append.mp he with h1 | h1
    · obtain ⟨x, _, rfl⟩ := List.mem_map.mp h1
      left
      rfl
    · obtain ⟨x, _, rfl⟩ := List.mem_map.mp h1
      right
      rfl
  · exact ⟨("actor" :: a0.1, a0.2), List.mem_append.mpr (Or.inl (by simp [underKey])), rfl⟩
  · exact ⟨("critic" :: c0.1, c0.2), List.mem_append.mpr (Or.inr (by simp [underKey])), rfl⟩
  · rw [subDict_append, subDict_underKey_same,
      subDict_underKey_other "critic" "actor" (by decide)]
    simp
  · rw [subDict_append, subDict_underKey_same,
      subDict_underKey_other "actor" "critic" (by decide)]
    simp
  · exact (genericForward_ok _ _ _ _ _ ha).2.2
  · exact (genericForward_ok _ _ _ _ _ hcr).2.2

/-- Witness for C9 with two concrete trivial sub-encoders. -/
theorem ac_forward_routes_witness :
    acForward encW encW [] =
      .ok (underKey "actor" [(["encoder_out"], TLeaf.noneV)] ++
        underKey "critic" [(["encoder_out"], TLeaf.noneV)])
    ∧ (∀ e ∈ underKey "actor" [(["encoder_out"], TLeaf.noneV)] ++
        underKey "critic" [(["encoder_out"], TLeaf.noneV)],
        e.1.head? = some "actor" ∨ e.1.head? = some "critic")
    ∧ (∃ e ∈ underKey "actor" [(["encoder_out"], TLeaf.noneV)] ++
        underKey "critic" [(["encoder_out"], TLeaf.noneV)],
        e.1.head? = some "actor")
    ∧ (∃ e ∈ underKey "actor" [(["encoder_out"], TLeaf.noneV)] ++
        underKey "critic" [(["encoder_out"], TLeaf.noneV)],
        e.1.head? = some "critic")
    ∧ subDict (underKey "actor" [(["encoder_out"], TLeaf.noneV)] ++
        underKey "critic" [(["encoder_out"], TLeaf.noneV)]) "actor" =
      [(["encoder_out"], TLeaf.noneV)]
    ∧ subDict (underKey "actor" [(["encoder_out"], TLeaf.noneV)] ++
        underKey "critic" [(["encoder_out"], TLeaf.noneV)]) "critic" =
      [(["encoder_out"], TLeaf.noneV)]
    ∧ validateF encW.outSpec [(["encoder_out"], TLeaf.noneV)] = none
    ∧ validateF encW.outSpec [(["encoder_out"], TLeaf.noneV)] = none :=
  ac_forward_routes encW encW [] [(["encoder_out"], TLeaf.noneV)]
    [(["encoder_out"], TLeaf.noneV)] rfl rfl (by simp) (by simp)

/-- C10: constructing the recurrent encoder invokes only the
framework-model initializer TfModel.__init__ and no contract-base
initializer, whereas the CNN encoder, the MLP encoder and the
actor-critic composite each invoke the framework-model initializer and a
contract-base initializer. -/
theorem init_call_discipline :
    (BaseInit.tfModel ∈ TfLSTMEncoder.initCalls
      ∧ ∀ b ∈ TfLSTMEncoder.initCalls, contractInit b = false)
    ∧ (BaseInit.tfModel ∈ TfCNNEncoder.initCalls
      ∧ ∃ b ∈ TfCNNEncoder.initCalls, contractInit b = true)
    ∧ (BaseInit.tfModel ∈ TfMLPEncoder.initCalls
      ∧ ∃ b ∈ TfMLPEncoder.initCalls, contractInit b = true)
    ∧ (BaseInit.tfModel ∈ TfActorCriticEncoder.initCalls
      ∧ ∃ b ∈ TfActorCriticEncoder.initCalls, contractInit b = true) := by
  decide

end RayEnc
